import Mathlib

/-!
Shallow embedding of the tutoring-bot source (`src/bot.py`).

Modelling conventions:
* Instants are integers (`Time := Int`).  The Python code stores UTC
  ISO-8601 strings and compares them lexicographically, which agrees with
  the order of the instants they denote, so an integer timeline is a
  faithful model of those comparisons.
* The Python dict `users_db` (keyed by `telegram_id`) and the lists
  `homeworks_db`, `lessons_db` become Lean lists; dictionary lookup is
  `List.find?` on the key field, and in-place mutation of an entity found
  by key becomes an update of the entries carrying that key.  Entity ids
  are allocated by `get_next_id` and are unique in any reachable state.
* Message sends (`application.bot.send_message`) are external I/O; where a
  claim counts them they are recorded as explicit events, otherwise they
  are dropped from the model.
* Every call of `datetime.now(utc)` becomes an explicit `now : Time`
  argument.
-/

namespace Bot


abbrev Time := Int

/-- A `users_db` entry (see `register_user` in `src/bot.py`).  The Python
dict also stores `id` equal to `telegram_id`; we keep the single copy. -/
structure User where
  telegram_id : Int
  username : String
  full_name : String
  role : String
  created_at : Time
  lives : Int
  last_life_reset : Time
  timezone : String
deriving Repr, DecidableEq

/-- A `homeworks_db` entry. -/
structure Homework where
  id : Int
  student_id : Int
  tutor_id : Int
  task_text : String
  deadline : Time
  is_completed : Bool
  completed_at : Option Time
  late_notified : Bool
deriving Repr, DecidableEq

/-- A `lessons_db` entry. -/
structure Lesson where
  id : Int
  student_id : Int
  tutor_id : Int
  lesson_time : Time
  topic : String
  notify_student : Bool
deriving Repr, DecidableEq

/-- `settings['notifications']` in `src/bot.py`.  The `*_times` lists hold
hour offsets before the deadline / lesson time. -/
structure NotificationSettings where
  homework_reminders : Bool
  lesson_reminders : Bool
  late_homework_alerts : Bool
  homework_times : List Int
  lesson_times : List Int
deriving Repr, DecidableEq

/-- `settings['lives']` in `src/bot.py`. -/
structure LivesSettings where
  enabled : Bool
  max_lives : Int
  penalty_late : Int
  penalty_lesson : Int
  reward_early : Int
  auto_reset_days : Int
  show_to_student : Bool
deriving Repr, DecidableEq

/-- The process-wide `settings` dict. -/
structure Settings where
  timezone : String
  notifications : NotificationSettings
  lives : LivesSettings
deriving Repr, DecidableEq

/-- The global mutable state of the bot: `users_db`, `homeworks_db`,
`lessons_db` and `settings`. -/
structure State where
  users_db : List User
  homeworks_db : List Homework
  lessons_db : List Lesson
  settings : Settings
deriving Repr, DecidableEq

/-- `get_user(telegram_id)`: dictionary lookup by key. -/
def get_user (s : State) (telegram_id : Int) : Option User :=
  s.users_db.find? (fun u => u.telegram_id == telegram_id)

/-- `register_user(telegram_id, username, full_name, role)`: inserts a fresh
record only when the key is absent, returns whether an insert happened. -/
def register_user (s : State) (telegram_id : Int)
    (username full_name role : String) (now : Time) : State × Bool :=
  match get_user s telegram_id with
  | none =>
      ({ s with users_db := s.users_db ++
          [{ telegram_id := telegram_id, username := username,
             full_name := full_name, role := role, created_at := now,
             lives := s.settings.lives.max_lives, last_life_reset := now,
             timezone := s.settings.timezone }] }, true)
  | some _ => (s, false)

/-- `student['lives'] = new_lives`: updating the dict entry found by key. -/
def set_lives (s : State) (telegram_id new_lives : Int) : State :=
  { s with users_db := s.users_db.map (fun u =>
      if u.telegram_id == telegram_id then { u with lives := new_lives } else u) }

/-- `update_lives(student_id, delta, reason)`: clamps `current + delta`
into `[0, max_lives]` when the student exists and the policy is enabled;
otherwise does nothing and returns `None`.  The notification send inside it
is external I/O and is not part of the returned data. -/
def update_lives (s : State) (student_id delta : Int) : State × Option Int :=
  match get_user s student_id with
  | some student =>
      if s.settings.lives.enabled then
        let new_lives := max 0 (min (student.lives + delta)
          s.settings.lives.max_lives)
        (set_lives s student_id new_lives, some new_lives)
      else (s, none)
  | none => (s, none)

/-- A sequence of `update_lives` calls, keeping only the evolving state. -/
def run_adjustments (s : State) (ops : List (Int × Int)) : State :=
  ops.foldl (fun st op => (update_lives st op.1 op.2).1) s

/-- All stored lives balances lie in `[0, max_lives]`. -/
def lives_in_range (s : State) : Prop :=
  ∀ u ∈ s.users_db, 0 ≤ u.lives ∧ u.lives ≤ s.settings.lives.max_lives

/-- `get_active_homeworks()`: deadline strictly in the future and not
completed (the Python code compares the stored ISO strings). -/
def get_active_homeworks (s : State) (now : Time) : List Homework :=
  s.homeworks_db.filter (fun h => now < h.deadline && !h.is_completed)

/-- `get_late_homeworks()`: deadline strictly in the past, not completed,
not yet flagged `late_notified`. -/
def get_late_homeworks (s : State) (now : Time) : List Homework :=
  s.homeworks_db.filter (fun h =>
    h.deadline < now && !h.is_completed && !h.late_notified)

/-- `get_upcoming_lessons()`: lesson time strictly in the future. -/
def get_upcoming_lessons (s : State) (now : Time) : List Lesson :=
  s.lessons_db.filter (fun l => now < l.lesson_time)

/-- An apscheduler trigger: fixed-interval sweep or one-shot date job. -/
inductive Trigger where
  | interval (hours : Int)
  | date (run_date : Time)
deriving Repr, DecidableEq

/-- A job as registered with `scheduler.add_job`, reduced to the data the
claims are about: its id and its trigger. -/
structure Job where
  id : String
  trigger : Trigger
deriving Repr, DecidableEq

/-- The deterministic homework job id `hw_{hours}h_{id}`. -/
def hwJobId (hours_before hw_id : Int) : String :=
  "hw_" ++ toString hours_before ++ "h_" ++ toString hw_id

/-- The deterministic lesson job id `lesson_{hours}h_{id}`. -/
def lessonJobId (hours_before lesson_id : Int) : String :=
  "lesson_" ++ toString hours_before ++ "h_" ++ toString lesson_id

/-- `timedelta(hours=h)` on the integer minute timeline. -/
def hoursToMinutes (h : Int) : Int := h * 60

/-- `schedule_reminders()`: removes every existing job
(`scheduler.remove_all_jobs()` — hence the first argument is discarded),
re-registers the two fixed-interval sweeps, then one date job per active
homework / upcoming lesson and configured hour offset whose reminder time
is still strictly in the future. -/
def schedule_reminders (old_jobs : List Job) (s : State) (now : Time) :
    List Job :=
  let _ := old_jobs
  let base : List Job :=
    [{ id := "check_late_homeworks", trigger := .interval 6 },
     { id := "reset_lives_check", trigger := .interval 24 }]
  let hw_jobs : List Job :=
    if s.settings.notifications.homework_reminders then
      (get_active_homeworks s now).flatMap (fun hw =>
        match get_user s hw.student_id with
        | none => []
        | some _ =>
            s.settings.notifications.homework_times.filterMap
              (fun hours_before =>
                let reminder_time := hw.deadline - hoursToMinutes hours_before
                if now < reminder_time then
                  some { id := hwJobId hours_before hw.id,
                         trigger := .date reminder_time }
                else none))
    else []
  let lesson_jobs : List Job :=
    if s.settings.notifications.lesson_reminders then
      (get_upcoming_lessons s now).flatMap (fun lesson =>
        match get_user s lesson.student_id with
        | none => []
        | some _ =>
            if lesson.notify_student then
              s.settings.notifications.lesson_times.filterMap
                (fun hours_before =>
                  let reminder_time :=
                    lesson.lesson_time - hoursToMinutes hours_before
                  if now < reminder_time then
                    some { id := lessonJobId hours_before lesson.id,
                           trigger := .date reminder_time }
                  else none)
            else [])
    else []
  base ++ hw_jobs ++ lesson_jobs

/-- An example student record with 3 lives. -/
def exStudent : User :=
  { telegram_id := 10, username := "", full_name := "s", role := "student",
    created_at := 0, lives := 3, last_life_reset := 0, timezone := "" }

/-- Example settings: everything enabled, `max_lives = 5`, offsets 24h/2h. -/
def exSettings : Settings :=
  { timezone := "",
    notifications := ⟨true, true, true, [24, 2], [24, 2]⟩,
    lives := ⟨true, 5, 1, 2, 1, 7, true⟩ }

/-- An example state with one student (`lives = 3/5`), lives policy on. -/
def exStateOn : State :=
  { users_db := [exStudent], homeworks_db := [], lessons_db := [],
    settings := exSettings }

/-- An example tutor record. -/
def exTutor : User :=
  { telegram_id := 99, username := "", full_name := "t", role := "tutor",
    created_at := 0, lives := 5, last_life_reset := 0, timezone := "" }

/-- An example open homework for student 10 with deadline 10000. -/
def exHomework : Homework :=
  { id := 1, student_id := 10, tutor_id := 99, task_text := "",
    deadline := 10000, is_completed := false, completed_at := none,
    late_notified := false }

/-- A state holding the student, the tutor and one open homework. -/
def exStateHW : State :=
  { users_db := [exStudent, exTutor], homeworks_db := [exHomework],
    lessons_db := [], settings := exSettings }

/-- The lookup predicate of `complete_homework`:
`h['id'] == hw_id and h['student_id'] == user_id`. -/
def hwKey (hw_id user_id : Int) (h : Homework) : Bool :=
  h.id == hw_id && h.student_id == user_id

/-- The `next(...)` lookup at the top of `complete_homework`: the first
homework with the given id that belongs to the given student.  Note the
Python generator has no completed-check. -/
def find_homework (s : State) (hw_id user_id : Int) : Option Homework :=
  s.homeworks_db.find? (hwKey hw_id user_id)

/-- `hw['is_completed'] = True; hw['completed_at'] = now`. -/
def markCompleted (now : Time) (h : Homework) : Homework :=
  { h with is_completed := true, completed_at := some now }

/-- Update the first list element satisfying `p` (mutating the object
returned by `next(...)` mutates exactly that element of the list). -/
def updateFirst (p : α → Bool) (f : α → α) : List α → List α
  | [] => []
  | x :: xs => if p x then f x :: xs else x :: updateFirst p f xs

/-- Outcome of `complete_homework` as observable in its replies: the
"ДЗ не найдено" abort, or success with the early flag and `lives_change`. -/
inductive CompleteResult where
  | notFound
  | completed (is_early : Bool) (lives_change : Int)
deriving Repr, DecidableEq

/-- `complete_homework(...)`: looks the homework up by id and student,
aborts when absent; otherwise marks it completed at `now`, computes
`is_early = deadline > now` and, when the lives policy is enabled, the
completion is early and `reward_early > 0`, credits the reward through
`update_lives`.  The tutor/student messages are external I/O. -/
def complete_homework (s : State) (hw_id user_id : Int) (now : Time) :
    State × CompleteResult :=
  match find_homework s hw_id user_id with
  | none => (s, .notFound)
  | some hw =>
      let s1 : State :=
        { s with homeworks_db :=
            updateFirst (hwKey hw_id user_id) (markCompleted now) s.homeworks_db }
      let is_early : Bool := decide (now < hw.deadline)
      if s1.settings.lives.enabled && is_early &&
          decide (0 < s1.settings.lives.reward_early) then
        ((update_lives s1 user_id s1.settings.lives.reward_early).1,
          .completed is_early s1.settings.lives.reward_early)
      else (s1, .completed is_early 0)

/-- The late predicate used by `get_late_homeworks`' filter (and by the
spec's `is_late`): past deadline and not completed. -/
def is_late (h : Homework) (now : Time) : Bool :=
  h.deadline < now && !h.is_completed

/-- `exHomework` already completed at instant 100. -/
def exCompletedHW : Homework :=
  { exHomework with is_completed := true, completed_at := some 100 }

/-- A state whose only homework is already completed. -/
def exStateDone : State :=
  { exStateHW with homeworks_db := [exCompletedHW] }

/-- `exStateOn` with the lives policy disabled. -/
def exStateOff : State :=
  { exStateOn with settings :=
      { exSettings with lives := ⟨false, 5, 1, 2, 1, 7, true⟩ } }

/-- Notification side effects of the late-homework sweep, tagged with the
homework that produced them: the tutor "ПРОСРОЧКА ДЗ" alert and the
penalty application (carrying the balance `update_lives` returned). -/
inductive Event where
  | lateAlert (hw_id : Int)
  | latePenalty (hw_id : Int) (new_lives : Option Int)
deriving Repr, DecidableEq

/-- `hw['late_notified'] = True`: the snapshot entry is the same object as
the `homeworks_db` entry with that (unique) id. -/
def markLateNotified (s : State) (hw_id : Int) : State :=
  { s with homeworks_db := s.homeworks_db.map (fun h =>
      if h.id == hw_id then { h with late_notified := true } else h) }

/-- The body of the `for hw in late_hws` loop of `check_late_homeworks`:
skip when student or tutor is gone; otherwise set `late_notified`, send
the tutor alert when enabled, and apply the lives penalty when the lives
policy is enabled. -/
def sweep_step (acc : State × List Event) (hw : Homework) :
    State × List Event :=
  match get_user acc.1 hw.student_id, get_user acc.1 hw.tutor_id with
  | some student, some _tutor =>
      let st1 := markLateNotified acc.1 hw.id
      let evs1 := if st1.settings.notifications.late_homework_alerts then
          acc.2 ++ [Event.lateAlert hw.id] else acc.2
      if st1.settings.lives.enabled then
        let penalty := st1.settings.lives.penalty_late
        let r := update_lives st1 student.telegram_id (-penalty)
        (r.1, evs1 ++ [Event.latePenalty hw.id r.2])
      else (st1, evs1)
  | _, _ => acc

/-- `check_late_homeworks()`: snapshots the late list once, then processes
every entry in order. -/
def check_late_homeworks (s : State) (now : Time) : State × List Event :=
  (get_late_homeworks s now).foldl sweep_step (s, [])

/-- One iteration of a repeated sweep schedule, accumulating events. -/
def sweep_at (acc : State × List Event) (t : Time) : State × List Event :=
  ((check_late_homeworks acc.1 t).1, acc.2 ++ (check_late_homeworks acc.1 t).2)

/-- Run the sweep at each of the given times in order. -/
def run_sweeps (s : State) (times : List Time) : State × List Event :=
  times.foldl sweep_at (s, [])

/-- Recognizer for the tutor alert of a given homework. -/
def isLateAlertFor (i : Int) : Event → Bool
  | .lateAlert j => j == i
  | _ => false

/-- Recognizer for the penalty application of a given homework. -/
def isLatePenaltyFor (i : Int) : Event → Bool
  | .latePenalty j _ => j == i
  | _ => false

/-- Every stored homework with this id carries `late_notified = true`. -/
def notified_for (i : Int) (l : List Homework) : Prop :=
  ∀ h ∈ l, h.id = i → h.late_notified = true

/-- `exHomework` with a deadline (50) already in the past at sweep time. -/
def exLateHW : Homework :=
  { exHomework with deadline := 50 }

/-- A state with student, tutor, and one overdue homework. -/
def exStateLate : State :=
  { exStateHW with homeworks_db := [exLateHW] }

/-- The state mutation of `tutor_delete_student_execute`: when the student
exists, delete the `users_db` entry (`del users_db[student_id]`) and drop
every homework and lesson carrying that `student_id`; otherwise report
"Ученик не найден" and change nothing. -/
def tutor_delete_student_execute (s : State) (student_id : Int) : State :=
  match get_user s student_id with
  | some _ =>
      { s with
        users_db := s.users_db.filter (fun u => u.telegram_id != student_id),
        homeworks_db :=
          s.homeworks_db.filter (fun h => h.student_id != student_id),
        lessons_db :=
          s.lessons_db.filter (fun l => l.student_id != student_id) }
  | none => s

/-- An example lesson for student 10. -/
def exLesson : Lesson :=
  { id := 2, student_id := 10, tutor_id := 99, lesson_time := 500,
    topic := "", notify_student := true }

/-- A state holding the student, the tutor, a homework and a lesson. -/
def exStateDel : State :=
  { exStateHW with lessons_db := [exLesson] }

/-- Leap year per the Gregorian rules `datetime` uses. -/
def isLeap (y : Nat) : Bool :=
  y % 4 == 0 && (y % 100 != 0 || y % 400 == 0)

/-- Days in a month, as validated by the `datetime` constructor. -/
def daysInMonth (y m : Nat) : Nat :=
  if m == 1 || m == 3 || m == 5 || m == 7 || m == 8 || m == 10 || m == 12
  then 31
  else if m == 4 || m == 6 || m == 9 || m == 11 then 30
  else if isLeap y then 29 else 28

/-- Days in the months of year `y` strictly before month `m`. -/
def daysBeforeMonth (y m : Nat) : Nat :=
  (List.range (m - 1)).foldl (fun a k => a + daysInMonth y (k + 1)) 0

/-- Days from 0001-01-01 to the given civil date (proleptic Gregorian),
the ordinal count underlying `datetime` arithmetic. -/
def civilToDays (y m d : Nat) : Nat :=
  (y - 1) * 365 + (y - 1) / 4 - (y - 1) / 100 + (y - 1) / 400 +
    daysBeforeMonth y m + (d - 1)

/-- `tz.localize(naive).astimezone(utc)` for a zone modelled by its fixed
UTC offset in minutes: the absolute instant in UTC minutes. -/
def toUTCMinutes (y m d hh mi : Nat) (tz_offset : Int) : Int :=
  ((civilToDays y m d : Int) * 1440 + (hh : Int) * 60 + (mi : Int)) -
    tz_offset

/-- The value of an ASCII digit character. -/
def digitVal? (c : Char) : Option Nat :=
  if 48 ≤ c.toNat ∧ c.toNat ≤ 57 then some (c.toNat - 48) else none

/-- Greedy one-or-two digit number: the observable behavior of the `%d`,
`%m`, `%H`, `%M` patterns of `strptime` (their value ranges are checked in
`validDateTime` below, exactly where `strptime`/`datetime` reject). -/
def parseNat2 : List Char → Option (Nat × List Char)
  | [] => none
  | [c1] =>
      match digitVal? c1 with
      | some v => some (v, [])
      | none => none
  | c1 :: c2 :: rest =>
      match digitVal? c1, digitVal? c2 with
      | some v1, some v2 => some (10 * v1 + v2, rest)
      | some v1, none => some (v1, c2 :: rest)
      | none, _ => none

/-- Exactly four digits: the `%Y` pattern of `strptime`. -/
def parseNat4 : List Char → Option (Nat × List Char)
  | c1 :: c2 :: c3 :: c4 :: rest =>
      match digitVal? c1, digitVal? c2, digitVal? c3, digitVal? c4 with
      | some v1, some v2, some v3, some v4 =>
          some (1000 * v1 + 100 * v2 + 10 * v3 + v4, rest)
      | _, _, _, _ => none
  | _ => none

/-- A literal separator character. -/
def expectChar (c : Char) : List Char → Option (List Char)
  | x :: rest => if x == c then some rest else none
  | [] => none

/-- The range checks performed by `strptime`'s pattern together with the
`datetime` constructor (year 1-9999, real calendar day, 24h clock). -/
def validDateTime (y m d hh mi : Nat) : Bool :=
  1 ≤ y && y ≤ 9999 && 1 ≤ m && m ≤ 12 && 1 ≤ d &&
    d ≤ daysInMonth y m && hh ≤ 23 && mi ≤ 59

/-- `datetime.strptime(s, '%d.%m.%Y %H:%M')` on a character list: parse,
require the whole input consumed, validate. -/
def strptime_full_chars (cs : List Char) :
    Option (Nat × Nat × Nat × Nat × Nat) :=
  match parseNat2 cs with
  | none => none
  | some (d, r1) =>
    match expectChar '.' r1 with
    | none => none
    | some r2 =>
      match parseNat2 r2 with
      | none => none
      | some (m, r3) =>
        match expectChar '.' r3 with
        | none => none
        | some r4 =>
          match parseNat4 r4 with
          | none => none
          | some (y, r5) =>
            match expectChar ' ' r5 with
            | none => none
            | some r6 =>
              match parseNat2 r6 with
              | none => none
              | some (hh, r7) =>
                match expectChar ':' r7 with
                | none => none
                | some r8 =>
                  match parseNat2 r8 with
                  | none => none
                  | some (mi, r9) =>
                    if r9 = [] ∧ validDateTime y m d hh mi then
                      some (d, m, y, hh, mi)
                    else none

/-- `datetime.strptime(s, '%d.%m.%Y')` on a character list. -/
def strptime_date_chars (cs : List Char) : Option (Nat × Nat × Nat) :=
  match parseNat2 cs with
  | none => none
  | some (d, r1) =>
    match expectChar '.' r1 with
    | none => none
    | some r2 =>
      match parseNat2 r2 with
      | none => none
      | some (m, r3) =>
        match expectChar '.' r3 with
        | none => none
        | some r4 =>
          match parseNat4 r4 with
          | none => none
          | some (y, r5) =>
            if r5 = [] ∧ validDateTime y m d 23 59 then some (d, m, y)
            else none

/-- `datetime.strptime(s, '%d.%m.%Y %H:%M')`. -/
def strptime_full (s : String) : Option (Nat × Nat × Nat × Nat × Nat) :=
  strptime_full_chars s.data

/-- `datetime.strptime(s, '%d.%m.%Y')`. -/
def strptime_date (s : String) : Option (Nat × Nat × Nat) :=
  strptime_date_chars s.data

/-- `parse_datetime(dt_str, user_tz)`: try `DD.MM.YYYY HH:MM`; on failure
fall back to `DD.MM.YYYY` at 23:59; localize in the zone and convert to
UTC; on failure of both, log and return `None`. -/
def parse_datetime (s : String) (tz_offset : Int) : Option Int :=
  match strptime_full s with
  | some (d, m, y, hh, mi) => some (toUTCMinutes y m d hh mi tz_offset)
  | none =>
      match strptime_date s with
      | some (d, m, y) => some (toUTCMinutes y m d 23 59 tz_offset)
      | none => none

/-- The ASCII digit character of `k ≤ 9`. -/
def toDigitChar (k : Nat) : Char := Char.ofNat (48 + k)

/-- Two-digit zero-padded rendering of `n ≤ 99`. -/
def pad2Chars (n : Nat) : List Char :=
  [toDigitChar (n / 10), toDigitChar (n % 10)]

/-- Four-digit zero-padded rendering of `n ≤ 9999`. -/
def pad4Chars (n : Nat) : List Char :=
  [toDigitChar (n / 1000), toDigitChar (n / 100 % 10),
   toDigitChar (n / 10 % 10), toDigitChar (n % 10)]

/-- The canonical `DD.MM.YYYY HH:MM` rendering. -/
def format_full (d m y hh mi : Nat) : String :=
  String.mk (pad2Chars d ++ '.' :: (pad2Chars m ++ '.' :: (pad4Chars y ++
    ' ' :: (pad2Chars hh ++ ':' :: pad2Chars mi))))

/-- The canonical `DD.MM.YYYY` rendering. -/
def format_date (d m y : Nat) : String :=
  String.mk (pad2Chars d ++ '.' :: (pad2Chars m ++ '.' :: pad4Chars y))

lemma set_lives_settings (s : State) (tid v : Int) :
    (set_lives s tid v).settings = s.settings := rfl

lemma update_lives_settings (s : State) (sid δ : Int) :
    (update_lives s sid δ).1.settings = s.settings := by
  unfold update_lives
  cases get_user s sid <;> simp [set_lives]
  split <;> rfl

lemma get_user_set_lives_self (s : State) (sid v : Int) (u : User)
    (h : get_user s sid = some u) :
    get_user (set_lives s sid v) sid = some { u with lives := v } := by
  unfold get_user set_lives at *
  rw [List.find?_map]
  have hkey : ∀ w : User,
      ((fun x : User => x.telegram_id == sid) ∘ fun w : User =>
        if w.telegram_id == sid then { w with lives := v } else w) =
      (fun w : User => w.telegram_id == sid) := by
    intro _
    funext w
    by_cases hw : w.telegram_id = sid <;> simp [hw]
  rw [hkey u, h]
  have hu : u.telegram_id = sid := by
    have := List.find?_some h
    simpa using this
  simp [hu]

lemma update_lives_step_range (s : State) (sid δ : Int)
    (hmax : 0 ≤ s.settings.lives.max_lives)
    (hinv : lives_in_range s) : lives_in_range (update_lives s sid δ).1 := by
  unfold update_lives
  cases hg : get_user s sid with
  | none => simpa using hinv
  | some student =>
      by_cases hen : s.settings.lives.enabled
      · simp only [hen, if_true]
        intro u hu
        simp only [set_lives, List.mem_map] at hu
        obtain ⟨w, hw, rfl⟩ := hu
        by_cases hk : w.telegram_id = sid
        · simp only [hk, beq_self_eq_true, if_true, set_lives]
          constructor
          · exact le_max_left _ _
          · have : min (student.lives + δ) s.settings.lives.max_lives ≤
                s.settings.lives.max_lives := min_le_right _ _
            exact max_le hmax this
        · simp only [beq_iff_eq, hk, if_false, set_lives]
          exact hinv w hw
      · simp only [hen, if_false]
        exact hinv

/-- Claim C1: after any `update_lives` call with the policy enabled the new
balance is `current + delta` clamped into `[0, max_lives]`, and any
sequence of `update_lives` calls preserves `0 ≤ lives ≤ max_lives` for
every stored student. -/
theorem C1_update_lives_clamped (s : State)
    (hmax : 0 ≤ s.settings.lives.max_lives) :
    (∀ sid δ u, s.settings.lives.enabled = true → get_user s sid = some u →
      get_user (update_lives s sid δ).1 sid =
        some { u with lives := max 0 (min (u.lives + δ)
          s.settings.lives.max_lives) }) ∧
    (lives_in_range s → ∀ ops, lives_in_range (run_adjustments s ops)) := by
  constructor
  · intro sid δ u hen hu
    unfold update_lives
    rw [hu]
    simp only [hen, if_true]
    exact get_user_set_lives_self s sid _ u hu
  · intro hinv ops
    induction ops generalizing s with
    | nil => simpa [run_adjustments] using hinv
    | cons op rest ih =>
        have hstep := update_lives_step_range s op.1 op.2 hmax hinv
        have hset : (update_lives s op.1 op.2).1.settings = s.settings :=
          update_lives_settings s op.1 op.2
        have hmax' : 0 ≤ (update_lives s op.1 op.2).1.settings.lives.max_lives := by
          rw [hset]; exact hmax
        have := ih (update_lives s op.1 op.2).1 hmax' hstep
        simpa [run_adjustments] using this

/-- Claim C3: `schedule_reminders` first drops all previously registered jobs and
re-derives the set purely from the current stores and time, so a second
call with unchanged inputs returns the identical job list (same ids, same
fire times). -/
theorem C3_schedule_reminders_idempotent (old : List Job) (s : State)
    (now : Time) :
    schedule_reminders (schedule_reminders old s now) s now =
      schedule_reminders old s now := rfl

/-- Claim C5: every entity-derived job registered by `schedule_reminders` is a
date job strictly in the future; an entity-offset pair whose reminder time
is not after `now` yields no job at all. -/
theorem C5_no_retroactive_jobs (old : List Job) (s : State) (now : Time) :
    ∀ j ∈ schedule_reminders old s now, ∀ t, j.trigger = Trigger.date t →
      now < t := by
  intro j hj t ht
  simp only [schedule_reminders, List.mem_append] at hj
  rcases hj with (hb | hhw) | hles
  · simp only [List.mem_cons, List.not_mem_nil, or_false] at hb
    rcases hb with hb | hb <;> (rw [hb] at ht; cases ht)
  · by_cases hr : s.settings.notifications.homework_reminders
    · simp only [hr, if_true, List.mem_flatMap] at hhw
      obtain ⟨hw, _, hin⟩ := hhw
      cases hget : get_user s hw.student_id with
      | none => rw [hget] at hin; cases hin
      | some u =>
          rw [hget] at hin
          simp only [List.mem_filterMap] at hin
          obtain ⟨hb, _, heq⟩ := hin
          by_cases hfut : now < hw.deadline - hoursToMinutes hb
          · simp only [hfut, if_true, Option.some.injEq] at heq
            rw [← heq] at ht
            cases ht
            exact hfut
          · simp [hfut] at heq
    · simp [hr] at hhw
  · by_cases hr : s.settings.notifications.lesson_reminders
    · simp only [hr, if_true, List.mem_flatMap] at hles
      obtain ⟨lesson, _, hin⟩ := hles
      cases hget : get_user s lesson.student_id with
      | none => rw [hget] at hin; cases hin
      | some u =>
          rw [hget] at hin
          by_cases hn : lesson.notify_student
          · simp only [hn, if_true, List.mem_filterMap] at hin
            obtain ⟨hb, _, heq⟩ := hin
            by_cases hfut : now < lesson.lesson_time - hoursToMinutes hb
            · simp only [hfut, if_true, Option.some.injEq] at heq
              rw [← heq] at ht
              cases ht
              exact hfut
            · simp [hfut] at heq
          · simp [hn] at hin
    · simp [hr] at hles

/-- Concrete instantiation of `C5_no_retroactive_jobs`: at `now = 100` the
24h reminder for `exHomework` is registered and its fire time 8560 is in
the future (while the 2h offset at fire time 9880 is also future; a past
offset simply yields no membership hypothesis to instantiate). -/
theorem C5_no_retroactive_jobs_witness :
    ({ id := hwJobId 24 1, trigger := Trigger.date 8560 } : Job) ∈
        schedule_reminders [] exStateHW 100 ∧ (100 : Time) < 8560 :=
  ⟨by decide,
   C5_no_retroactive_jobs [] exStateHW 100
     { id := hwJobId 24 1, trigger := Trigger.date 8560 } (by decide)
     8560 rfl⟩

/-- Concrete instantiation of `C1_update_lives_clamped` at `exStateOn`. -/
theorem C1_update_lives_clamped_witness :
    (0 : Int) ≤ exStateOn.settings.lives.max_lives ∧
    ((∀ sid δ u, exStateOn.settings.lives.enabled = true →
      get_user exStateOn sid = some u →
      get_user (update_lives exStateOn sid δ).1 sid =
        some { u with lives := max 0 (min (u.lives + δ)
          exStateOn.settings.lives.max_lives) }) ∧
    (lives_in_range exStateOn →
      ∀ ops, lives_in_range (run_adjustments exStateOn ops))) :=
  ⟨by decide, C1_update_lives_clamped exStateOn (by decide)⟩

lemma update_lives_homeworks (s : State) (sid δ : Int) :
    (update_lives s sid δ).1.homeworks_db = s.homeworks_db := by
  unfold update_lives
  cases get_user s sid <;> simp [set_lives]
  split <;> rfl

lemma find?_updateFirst (p : α → Bool) (f : α → α)
    (hpf : ∀ a, p a = true → p (f a) = true) :
    ∀ (l : List α) (x : α), l.find? p = some x →
      (updateFirst p f l).find? p = some (f x)
  | y :: ys, x, hfind => by
      cases hy : p y with
      | true =>
          rw [List.find?_cons_of_pos _ hy] at hfind
          cases hfind
          unfold updateFirst
          rw [if_pos hy]
          exact List.find?_cons_of_pos _ (hpf _ hy)
      | false =>
          rw [List.find?_cons_of_neg _ (by simp [hy])] at hfind
          unfold updateFirst
          rw [if_neg (by simp [hy])]
          rw [List.find?_cons_of_neg _ (by simp [hy])]
          exact find?_updateFirst p f hpf ys x hfind

lemma complete_homework_notFound (s : State) (hw_id user_id : Int)
    (now : Time) (h : find_homework s hw_id user_id = none) :
    complete_homework s hw_id user_id now = (s, .notFound) := by
  unfold complete_homework
  rw [h]

lemma complete_homework_result (s : State) (hw_id user_id : Int)
    (now : Time) (hw : Homework)
    (h : find_homework s hw_id user_id = some hw) :
    (complete_homework s hw_id user_id now).2 =
      .completed (decide (now < hw.deadline))
        (if s.settings.lives.enabled = true ∧ now < hw.deadline ∧
            0 < s.settings.lives.reward_early
         then s.settings.lives.reward_early else 0) := by
  unfold complete_homework
  rw [h]
  by_cases hc : s.settings.lives.enabled = true ∧ now < hw.deadline ∧
      0 < s.settings.lives.reward_early
  · obtain ⟨h1, h2, h3⟩ := hc
    simp [h1, h2, h3]
  · rw [if_neg hc]
    have hb : (s.settings.lives.enabled && decide (now < hw.deadline) &&
        decide (0 < s.settings.lives.reward_early)) = false := by
      by_contra hb
      rw [Bool.not_eq_false, Bool.and_eq_true, Bool.and_eq_true] at hb
      exact hc ⟨hb.1.1, by simpa using hb.1.2, by simpa using hb.2⟩
    simp only [hb, Bool.false_eq_true, if_false]

lemma complete_homework_marks (s : State) (hw_id user_id : Int)
    (now : Time) (hw : Homework)
    (h : find_homework s hw_id user_id = some hw) :
    find_homework (complete_homework s hw_id user_id now).1 hw_id user_id =
      some (markCompleted now hw) := by
  have hpf : ∀ a : Homework, hwKey hw_id user_id a = true →
      hwKey hw_id user_id (markCompleted now a) = true := fun a ha => ha
  have hupd := find?_updateFirst (hwKey hw_id user_id) (markCompleted now)
    hpf s.homeworks_db hw h
  unfold complete_homework
  rw [h]
  dsimp only
  split
  · unfold find_homework
    rw [update_lives_homeworks]
    exact hupd
  · unfold find_homework
    exact hupd

lemma update_lives_get_user_self (s : State) (sid δ : Int) (u : User)
    (hen : s.settings.lives.enabled = true)
    (hu : get_user s sid = some u) :
    get_user (update_lives s sid δ).1 sid =
      some { u with lives := max 0 (min (u.lives + δ)
        s.settings.lives.max_lives) } := by
  unfold update_lives
  rw [hu]
  simp only [hen, if_true]
  exact get_user_set_lives_self s sid _ u hu

lemma complete_homework_reward (s : State) (hw_id user_id : Int)
    (now : Time) (hw : Homework) (u : User)
    (h : find_homework s hw_id user_id = some hw)
    (hen : s.settings.lives.enabled = true)
    (hearly : now < hw.deadline)
    (hrew : 0 < s.settings.lives.reward_early)
    (hu : get_user s user_id = some u) :
    get_user (complete_homework s hw_id user_id now).1 user_id =
      some { u with lives := max 0 (min
        (u.lives + s.settings.lives.reward_early)
        s.settings.lives.max_lives) } := by
  unfold complete_homework
  rw [h]
  dsimp only
  rw [if_pos (by simp [hen, hearly, hrew])]
  have hu1 : get_user
      { s with homeworks_db :=
          updateFirst (hwKey hw_id user_id) (markCompleted now) s.homeworks_db }
      user_id = some u := hu
  exact update_lives_get_user_self _ user_id _ u hen hu1

/-- Claim C7: `complete_homework` aborts with the not-found outcome and no state
change when the id/student lookup fails; on success it marks the homework
completed at `now`, reports early exactly when `deadline > now`, and, when
the lives policy is enabled, the completion is early and `reward_early`
is positive, credits the student's lives with the (clamped) reward. -/
theorem C7_complete_homework_correct (s : State) (hw_id user_id : Int)
    (now : Time) :
    (find_homework s hw_id user_id = none →
      complete_homework s hw_id user_id now = (s, .notFound)) ∧
    (∀ hw, find_homework s hw_id user_id = some hw →
      (complete_homework s hw_id user_id now).2 =
        .completed (decide (now < hw.deadline))
          (if s.settings.lives.enabled = true ∧ now < hw.deadline ∧
              0 < s.settings.lives.reward_early
           then s.settings.lives.reward_early else 0) ∧
      find_homework (complete_homework s hw_id user_id now).1 hw_id user_id =
        some (markCompleted now hw) ∧
      (∀ u, s.settings.lives.enabled = true → now < hw.deadline →
        0 < s.settings.lives.reward_early → get_user s user_id = some u →
        get_user (complete_homework s hw_id user_id now).1 user_id =
          some { u with lives := max 0 (min
            (u.lives + s.settings.lives.reward_early)
            s.settings.lives.max_lives) })) :=
  ⟨fun h => complete_homework_notFound s hw_id user_id now h,
   fun hw h =>
    ⟨complete_homework_result s hw_id user_id now hw h,
     complete_homework_marks s hw_id user_id now hw h,
     fun u hen hearly hrew hu =>
       complete_homework_reward s hw_id user_id now hw u h hen hearly hrew hu⟩⟩

/-- Concrete instantiation of `C7_complete_homework_correct` on
`exStateHW`: completing homework 1 for student 10 at `now = 100` (deadline
10000) is early and lifts the lives balance from 3 to 4. -/
theorem C7_complete_homework_correct_witness :
    ((find_homework exStateHW 1 10 = none →
      complete_homework exStateHW 1 10 100 = (exStateHW, .notFound)) ∧
    (∀ hw, find_homework exStateHW 1 10 = some hw →
      (complete_homework exStateHW 1 10 100).2 =
        .completed (decide ((100 : Time) < hw.deadline))
          (if exStateHW.settings.lives.enabled = true ∧
              (100 : Time) < hw.deadline ∧
              0 < exStateHW.settings.lives.reward_early
           then exStateHW.settings.lives.reward_early else 0) ∧
      find_homework (complete_homework exStateHW 1 10 100).1 1 10 =
        some (markCompleted 100 hw) ∧
      (∀ u, exStateHW.settings.lives.enabled = true →
        (100 : Time) < hw.deadline →
        0 < exStateHW.settings.lives.reward_early →
        get_user exStateHW 10 = some u →
        get_user (complete_homework exStateHW 1 10 100).1 10 =
          some { u with lives := max 0 (min
            (u.lives + exStateHW.settings.lives.reward_early)
            exStateHW.settings.lives.max_lives) }))) ∧
    find_homework exStateHW 1 10 = some exHomework ∧
    get_user exStateHW 10 = some exStudent :=
  ⟨C7_complete_homework_correct exStateHW 1 10 100, by decide, by decide⟩

/-- Claim C4 fails as stated: `complete_homework` has no already-completed
check, so a second completion attempt at `now = 200` does not fail and
does not leave the state unchanged — it overwrites `completed_at` with 200
and, the deadline still being in the future, credits the early reward
again (student lives 3 → 4). -/
theorem C4_counterexample :
    exCompletedHW.is_completed = true ∧
    (complete_homework exStateDone 1 10 200).2 ≠ CompleteResult.notFound ∧
    (complete_homework exStateDone 1 10 200).1 ≠ exStateDone ∧
    (complete_homework exStateDone 1 10 200).1.homeworks_db.map
      Homework.completed_at = [some 200] ∧
    (complete_homework exStateDone 1 10 200).1.users_db.map User.lives =
      [4, 5] := by decide

/-- Claim C4 amended: a completion attempt on an already-completed homework is
not rejected (the code has no already-completed guard): it succeeds again,
re-marking the homework completed and overwriting `completed_at` with the
new time — re-crediting the early reward when the deadline is still ahead
— while `is_late` does return false for the homework at every later
time. -/
theorem C4_amended_no_already_completed_guard (s : State)
    (hw_id user_id : Int) (now : Time) (hw : Homework)
    (hfind : find_homework s hw_id user_id = some hw)
    (_hdone : hw.is_completed = true) :
    (complete_homework s hw_id user_id now).2 =
      CompleteResult.completed (decide (now < hw.deadline))
        (if s.settings.lives.enabled = true ∧ now < hw.deadline ∧
            0 < s.settings.lives.reward_early
         then s.settings.lives.reward_early else 0) ∧
    find_homework (complete_homework s hw_id user_id now).1 hw_id user_id =
      some (markCompleted now hw) ∧
    (∀ t, is_late (markCompleted now hw) t = false) :=
  ⟨complete_homework_result s hw_id user_id now hw hfind,
   complete_homework_marks s hw_id user_id now hw hfind,
   fun t => by simp [is_late, markCompleted]⟩

/-- Concrete instantiation of `C4_amended_no_already_completed_guard` at
`exStateDone`. -/
theorem C4_amended_no_already_completed_guard_witness :
    (find_homework exStateDone 1 10 = some exCompletedHW ∧
      exCompletedHW.is_completed = true) ∧
    ((complete_homework exStateDone 1 10 200).2 =
      CompleteResult.completed (decide ((200 : Time) < exCompletedHW.deadline))
        (if exStateDone.settings.lives.enabled = true ∧
            (200 : Time) < exCompletedHW.deadline ∧
            0 < exStateDone.settings.lives.reward_early
         then exStateDone.settings.lives.reward_early else 0) ∧
    find_homework (complete_homework exStateDone 1 10 200).1 1 10 =
      some (markCompleted 200 exCompletedHW) ∧
    (∀ t, is_late (markCompleted 200 exCompletedHW) t = false)) :=
  ⟨⟨by decide, by decide⟩,
   C4_amended_no_already_completed_guard exStateDone 1 10 200 exCompletedHW
     (by decide) (by decide)⟩

/-- Claim C6 fails as stated: with the policy disabled, `update_lives` does leave
the lives unchanged but returns `None` (`update_lives` falls through to
`return None`), not the current balance. -/
theorem C6_counterexample :
    (get_user exStateOff 10).map User.lives = some 3 ∧
    (update_lives exStateOff 10 (-2)).2 = none ∧
    (update_lives exStateOff 10 (-2)).2 ≠ some 3 := by decide

/-- Claim C6 amended: with the lives policy disabled, `update_lives` is a
complete no-op on the state and returns `None` instead of a balance. -/
theorem C6_amended_update_lives_disabled (s : State) (sid δ : Int)
    (h : s.settings.lives.enabled = false) :
    update_lives s sid δ = (s, none) := by
  unfold update_lives
  cases get_user s sid <;> simp [h]

/-- Concrete instantiation of `C6_amended_update_lives_disabled`. -/
theorem C6_amended_update_lives_disabled_witness :
    exStateOff.settings.lives.enabled = false ∧
    update_lives exStateOff 10 (-2) = (exStateOff, none) :=
  ⟨by decide, C6_amended_update_lives_disabled exStateOff 10 (-2) (by decide)⟩

/-- Claim C10: `register_user` on an already-registered telegram id returns
`False` and leaves the whole state (in particular the stored record with
its lives, role, timezone and reset timestamp) unchanged. -/
theorem C10_register_user_existing_noop (s : State) (tid : Int)
    (un fn r : String) (now : Time) (u : User)
    (h : get_user s tid = some u) :
    register_user s tid un fn r now = (s, false) ∧
    get_user (register_user s tid un fn r now).1 tid = some u := by
  unfold register_user
  rw [h]
  exact ⟨rfl, h⟩

/-- Concrete instantiation of `C10_register_user_existing_noop`: a second
`/start` for student 10 changes nothing. -/
theorem C10_register_user_existing_noop_witness :
    get_user exStateOn 10 = some exStudent ∧
    register_user exStateOn 10 "x" "y" "tutor" 99 = (exStateOn, false) ∧
    get_user (register_user exStateOn 10 "x" "y" "tutor" 99).1 10 =
      some exStudent := by
  refine ⟨by decide, ?_⟩
  exact C10_register_user_existing_noop exStateOn 10 "x" "y" "tutor" 99
    exStudent (by decide)

lemma get_user_map_users (s : State) (f : User → User)
    (hf : ∀ u, (f u).telegram_id = u.telegram_id) (uid : Int) :
    get_user { s with users_db := s.users_db.map f } uid =
      (get_user s uid).map f := by
  unfold get_user
  show (s.users_db.map f).find? (fun u => u.telegram_id == uid) = _
  have hcomp : ((fun u : User => u.telegram_id == uid) ∘ f) =
      (fun u : User => u.telegram_id == uid) := by
    funext u
    simp [Function.comp, hf u]
  rw [List.find?_map, hcomp]

lemma set_lives_get_user (s : State) (tid v uid : Int) :
    get_user (set_lives s tid v) uid =
      (get_user s uid).map (fun u =>
        if u.telegram_id == tid then { u with lives := v } else u) :=
  get_user_map_users s _
    (fun u => by by_cases h : u.telegram_id = tid <;> simp [h]) uid

lemma update_lives_get_user_isSome (s : State) (sid δ uid : Int) :
    (get_user (update_lives s sid δ).1 uid).isSome =
      (get_user s uid).isSome := by
  unfold update_lives
  cases hg : get_user s sid with
  | none => rfl
  | some student =>
      by_cases hen : s.settings.lives.enabled
      · simp only [hen, if_true]
        rw [set_lives_get_user]
        cases get_user s uid <;> rfl
      · simp [hen]

lemma markLateNotified_settings (s : State) (i : Int) :
    (markLateNotified s i).settings = s.settings := rfl

lemma notified_for_mark_self (s : State) (i : Int) :
    notified_for i (markLateNotified s i).homeworks_db := by
  intro x hmem hid
  simp only [markLateNotified, List.mem_map] at hmem
  obtain ⟨w, hw, rfl⟩ := hmem
  by_cases hk : w.id = i
  · simp [hk]
  · exfalso
    apply hk
    simp only [beq_iff_eq, hk, if_false] at hid

lemma notified_for_mark_mono (s : State) (i j : Int)
    (h : notified_for i s.homeworks_db) :
    notified_for i (markLateNotified s j).homeworks_db := by
  intro x hmem hid
  simp only [markLateNotified, List.mem_map] at hmem
  obtain ⟨w, hw, rfl⟩ := hmem
  by_cases hk : w.id = j
  · simp [hk]
  · simp only [beq_iff_eq, hk, if_false] at hid ⊢
    exact h w hw hid

lemma sweep_step_settings (acc : State × List Event) (hw : Homework) :
    (sweep_step acc hw).1.settings = acc.1.settings := by
  unfold sweep_step
  cases hs : get_user acc.1 hw.student_id <;>
    cases ht : get_user acc.1 hw.tutor_id <;> try rfl
  dsimp only
  split
  · rw [update_lives_settings, markLateNotified_settings]
  · rw [markLateNotified_settings]

lemma sweep_step_isSome (acc : State × List Event) (hw : Homework)
    (uid : Int) :
    (get_user (sweep_step acc hw).1 uid).isSome =
      (get_user acc.1 uid).isSome := by
  unfold sweep_step
  cases hs : get_user acc.1 hw.student_id <;>
    cases ht : get_user acc.1 hw.tutor_id <;> try rfl
  dsimp only
  split
  · rw [update_lives_get_user_isSome]
    rfl
  · rfl

lemma sweep_step_notified (i : Int) (acc : State × List Event)
    (hw : Homework) (h : notified_for i acc.1.homeworks_db) :
    notified_for i (sweep_step acc hw).1.homeworks_db := by
  unfold sweep_step
  cases hs : get_user acc.1 hw.student_id <;>
    cases ht : get_user acc.1 hw.tutor_id <;> try exact h
  dsimp only
  split
  · rw [update_lives_homeworks]
    exact notified_for_mark_mono acc.1 i hw.id h
  · exact notified_for_mark_mono acc.1 i hw.id h

lemma sweep_step_counts_ne (i : Int) (acc : State × List Event)
    (hw : Homework) (hne : hw.id ≠ i) :
    (sweep_step acc hw).2.countP (isLateAlertFor i) =
      acc.2.countP (isLateAlertFor i) ∧
    (sweep_step acc hw).2.countP (isLatePenaltyFor i) =
      acc.2.countP (isLatePenaltyFor i) := by
  unfold sweep_step
  cases hs : get_user acc.1 hw.student_id <;>
    cases ht : get_user acc.1 hw.tutor_id <;> try exact ⟨rfl, rfl⟩
  dsimp only
  constructor <;>
    (split <;> split <;>
      simp [List.countP_append, List.countP_cons, isLateAlertFor,
        isLatePenaltyFor, hne])

lemma sweep_step_counts_self (acc : State × List Event) (hw : Homework)
    (hstud : (get_user acc.1 hw.student_id).isSome = true)
    (htut : (get_user acc.1 hw.tutor_id).isSome = true)
    (halert : acc.1.settings.notifications.late_homework_alerts = true)
    (hlives : acc.1.settings.lives.enabled = true) :
    (sweep_step acc hw).2.countP (isLateAlertFor hw.id) =
      acc.2.countP (isLateAlertFor hw.id) + 1 ∧
    (sweep_step acc hw).2.countP (isLatePenaltyFor hw.id) =
      acc.2.countP (isLatePenaltyFor hw.id) + 1 ∧
    notified_for hw.id (sweep_step acc hw).1.homeworks_db := by
  obtain ⟨student, hs⟩ := Option.isSome_iff_exists.mp hstud
  obtain ⟨tutor, ht⟩ := Option.isSome_iff_exists.mp htut
  unfold sweep_step
  rw [hs, ht]
  dsimp only
  simp only [markLateNotified_settings, halert, hlives, if_true]
  refine ⟨?_, ?_, ?_⟩
  · simp [List.countP_append, List.countP_cons, isLateAlertFor,
      isLatePenaltyFor]
  · simp [List.countP_append, List.countP_cons, isLateAlertFor,
      isLatePenaltyFor]
  · rw [update_lives_homeworks]
    exact notified_for_mark_self acc.1 hw.id

lemma foldl_sweep_settings (L : List Homework) :
    ∀ acc : State × List Event,
      (L.foldl sweep_step acc).1.settings = acc.1.settings := by
  induction L with
  | nil => intro acc; rfl
  | cons x xs ih =>
      intro acc
      rw [List.foldl_cons, ih, sweep_step_settings]

lemma foldl_sweep_isSome (L : List Homework) (uid : Int) :
    ∀ acc : State × List Event,
      (get_user (L.foldl sweep_step acc).1 uid).isSome =
        (get_user acc.1 uid).isSome := by
  induction L with
  | nil => intro acc; rfl
  | cons x xs ih =>
      intro acc
      rw [List.foldl_cons, ih, sweep_step_isSome]

lemma foldl_sweep_notified (i : Int) (L : List Homework) :
    ∀ acc : State × List Event, notified_for i acc.1.homeworks_db →
      notified_for i (L.foldl sweep_step acc).1.homeworks_db := by
  induction L with
  | nil => intro acc h; exact h
  | cons x xs ih =>
      intro acc h
      rw [List.foldl_cons]
      exact ih _ (sweep_step_notified i acc x h)

lemma foldl_sweep_counts_ne (i : Int) (L : List Homework)
    (hL : ∀ h ∈ L, h.id ≠ i) :
    ∀ acc : State × List Event,
      (L.foldl sweep_step acc).2.countP (isLateAlertFor i) =
        acc.2.countP (isLateAlertFor i) ∧
      (L.foldl sweep_step acc).2.countP (isLatePenaltyFor i) =
        acc.2.countP (isLatePenaltyFor i) := by
  induction L with
  | nil => intro acc; exact ⟨rfl, rfl⟩
  | cons x xs ih =>
      intro acc
      rw [List.foldl_cons]
      have hx := sweep_step_counts_ne i acc x (hL x (List.mem_cons_self x xs))
      have ihr := ih (fun h hh => hL h (List.mem_cons_of_mem x hh)) (sweep_step acc x)
      exact ⟨ihr.1.trans hx.1, ihr.2.trans hx.2⟩

lemma check_late_homeworks_once (s : State) (hw : Homework) (t : Time)
    (hmem : hw ∈ get_late_homeworks s t)
    (huniq : (get_late_homeworks s t).Pairwise (fun a b => a.id ≠ b.id))
    (hstud : (get_user s hw.student_id).isSome = true)
    (htut : (get_user s hw.tutor_id).isSome = true)
    (halert : s.settings.notifications.late_homework_alerts = true)
    (hlives : s.settings.lives.enabled = true) :
    (check_late_homeworks s t).2.countP (isLateAlertFor hw.id) = 1 ∧
    (check_late_homeworks s t).2.countP (isLatePenaltyFor hw.id) = 1 ∧
    notified_for hw.id (check_late_homeworks s t).1.homeworks_db := by
  obtain ⟨L1, L2, hL⟩ := List.append_of_mem hmem
  rw [hL] at huniq
  have hp := List.pairwise_append.mp huniq
  have hL1 : ∀ x ∈ L1, x.id ≠ hw.id :=
    fun x hx => hp.2.2 x hx hw (List.mem_cons_self _ _)
  have hL2 : ∀ y ∈ L2, y.id ≠ hw.id := by
    have hc := List.pairwise_cons.mp hp.2.1
    intro y hy hcontra
    exact hc.1 y hy hcontra.symm
  unfold check_late_homeworks
  rw [hL, List.foldl_append, List.foldl_cons]
  have hset : (L1.foldl sweep_step (s, ([] : List Event))).1.settings =
      s.settings := foldl_sweep_settings L1 _
  have hs1 : (get_user (L1.foldl sweep_step
      (s, ([] : List Event))).1 hw.student_id).isSome = true := by
    rw [foldl_sweep_isSome]
    exact hstud
  have ht1 : (get_user (L1.foldl sweep_step
      (s, ([] : List Event))).1 hw.tutor_id).isSome = true := by
    rw [foldl_sweep_isSome]
    exact htut
  have hc1 := foldl_sweep_counts_ne hw.id L1 hL1 (s, ([] : List Event))
  have hstep := sweep_step_counts_self (L1.foldl sweep_step
      (s, ([] : List Event))) hw hs1 ht1
    (by rw [hset]; exact halert) (by rw [hset]; exact hlives)
  have hrest := foldl_sweep_counts_ne hw.id L2 hL2
    (sweep_step (L1.foldl sweep_step (s, ([] : List Event))) hw)
  have hnotif := foldl_sweep_notified hw.id L2
    (sweep_step (L1.foldl sweep_step (s, ([] : List Event))) hw) hstep.2.2
  refine ⟨?_, ?_, hnotif⟩
  · rw [hrest.1, hstep.1, hc1.1]
    rfl
  · rw [hrest.2, hstep.2.1, hc1.2]
    rfl

lemma check_late_homeworks_skips (i : Int) (s : State) (t : Time)
    (h : notified_for i s.homeworks_db) :
    (check_late_homeworks s t).2.countP (isLateAlertFor i) = 0 ∧
    (check_late_homeworks s t).2.countP (isLatePenaltyFor i) = 0 ∧
    notified_for i (check_late_homeworks s t).1.homeworks_db := by
  have hids : ∀ x ∈ get_late_homeworks s t, x.id ≠ i := by
    intro x hx hxi
    have hx' := List.mem_filter.mp hx
    have hflag := h x hx'.1 hxi
    have hpred := hx'.2
    simp [hflag] at hpred
  have hc := foldl_sweep_counts_ne i _ hids (s, ([] : List Event))
  have hn := foldl_sweep_notified i (get_late_homeworks s t)
    (s, ([] : List Event)) h
  exact ⟨hc.1, hc.2, hn⟩

lemma run_sweeps_after_notified (i : Int) (ts : List Time) :
    ∀ acc : State × List Event, notified_for i acc.1.homeworks_db →
      (ts.foldl sweep_at acc).2.countP (isLateAlertFor i) =
        acc.2.countP (isLateAlertFor i) ∧
      (ts.foldl sweep_at acc).2.countP (isLatePenaltyFor i) =
        acc.2.countP (isLatePenaltyFor i) ∧
      notified_for i (ts.foldl sweep_at acc).1.homeworks_db := by
  induction ts with
  | nil => intro acc h; exact ⟨rfl, rfl, h⟩
  | cons t ts ih =>
      intro acc h
      rw [List.foldl_cons]
      have hskip := check_late_homeworks_skips i acc.1 t h
      have ih' := ih (sweep_at acc t) hskip.2.2
      refine ⟨?_, ?_, ih'.2.2⟩
      · rw [ih'.1]
        show (acc.2 ++ (check_late_homeworks acc.1 t).2).countP _ = _
        rw [List.countP_append, hskip.1]
        rfl
      · rw [ih'.2.1]
        show (acc.2 ++ (check_late_homeworks acc.1 t).2).countP _ = _
        rw [List.countP_append, hskip.2.1]
        rfl

/-- Claim C2: a late, uncompleted, not-yet-notified homework whose student and
tutor exist is processed by the first sweep — one tutor alert and one
penalty application (alerts and lives being enabled) — and every stored
copy of it ends with `late_notified = true`, so any number of further
sweeps at any times adds no further alert or penalty for it. -/
theorem C2_late_sweep_exactly_once (s : State) (hw : Homework) (t0 : Time)
    (rest : List Time)
    (hmem : hw ∈ s.homeworks_db)
    (huniq : s.homeworks_db.Pairwise (fun a b => a.id ≠ b.id))
    (hlate : hw.deadline < t0)
    (hnc : hw.is_completed = false)
    (hnn : hw.late_notified = false)
    (hstud : (get_user s hw.student_id).isSome = true)
    (htut : (get_user s hw.tutor_id).isSome = true)
    (halert : s.settings.notifications.late_homework_alerts = true)
    (hlives : s.settings.lives.enabled = true) :
    (run_sweeps s (t0 :: rest)).2.countP (isLateAlertFor hw.id) = 1 ∧
    (run_sweeps s (t0 :: rest)).2.countP (isLatePenaltyFor hw.id) = 1 ∧
    notified_for hw.id (run_sweeps s (t0 :: rest)).1.homeworks_db := by
  have hmem' : hw ∈ get_late_homeworks s t0 :=
    List.mem_filter.mpr ⟨hmem, by simp [hlate, hnc, hnn]⟩
  have huniq' : (get_late_homeworks s t0).Pairwise
      (fun a b => a.id ≠ b.id) :=
    huniq.sublist (List.filter_sublist _)
  have hfirst := check_late_homeworks_once s hw t0 hmem' huniq'
    hstud htut halert hlives
  unfold run_sweeps
  rw [List.foldl_cons]
  have hrest := run_sweeps_after_notified hw.id rest (sweep_at (s, []) t0)
    hfirst.2.2
  refine ⟨?_, ?_, hrest.2.2⟩
  · rw [hrest.1]
    exact hfirst.1
  · rw [hrest.2.1]
    exact hfirst.2.1

/-- Concrete instantiation of `C2_late_sweep_exactly_once`: sweeps at
times 100 and 200 over `exStateLate` alert and penalize homework 1 exactly
once. -/
theorem C2_late_sweep_exactly_once_witness :
    (exLateHW ∈ exStateLate.homeworks_db ∧
     exStateLate.homeworks_db.Pairwise (fun a b => a.id ≠ b.id) ∧
     exLateHW.deadline < 100 ∧
     exLateHW.is_completed = false ∧
     exLateHW.late_notified = false ∧
     (get_user exStateLate exLateHW.student_id).isSome = true ∧
     (get_user exStateLate exLateHW.tutor_id).isSome = true ∧
     exStateLate.settings.notifications.late_homework_alerts = true ∧
     exStateLate.settings.lives.enabled = true) ∧
    ((run_sweeps exStateLate (100 :: [200])).2.countP
        (isLateAlertFor exLateHW.id) = 1 ∧
     (run_sweeps exStateLate (100 :: [200])).2.countP
        (isLatePenaltyFor exLateHW.id) = 1 ∧
     notified_for exLateHW.id
       (run_sweeps exStateLate (100 :: [200])).1.homeworks_db) :=
  ⟨⟨by decide, by decide, by decide, by decide, by decide, by decide,
    by decide, by decide, by decide⟩,
   C2_late_sweep_exactly_once exStateLate exLateHW 100 [200]
     (by decide) (by decide) (by decide) (by decide) (by decide)
     (by decide) (by decide) (by decide) (by decide)⟩

lemma find?_filter_of_imp (l : List α) (p q : α → Bool)
    (himp : ∀ a, p a = true → q a = true) :
    (l.filter q).find? p = l.find? p := by
  induction l with
  | nil => rfl
  | cons x xs ih =>
      by_cases hq : q x = true
      · rw [List.filter_cons_of_pos hq]
        by_cases hp : p x = true
        · rw [List.find?_cons_of_pos _ hp, List.find?_cons_of_pos _ hp]
        · rw [List.find?_cons_of_neg _ (by simp [hp]),
            List.find?_cons_of_neg _ (by simp [hp])]
          exact ih
      · rw [List.filter_cons_of_neg (by simp [hq])]
        have hp : ¬p x = true := fun hpx => hq (himp x hpx)
        rw [List.find?_cons_of_neg _ (by simp [hp])]
        exact ih

/-- Claim C9: deleting an existing student removes exactly their user record and
every homework and lesson referencing them as student; any other user id
still resolves to the same record, and a homework or lesson survives if
and only if it was present and belongs to a different student. -/
theorem C9_delete_student_cascades (s : State) (sid : Int) (u : User)
    (h : get_user s sid = some u) :
    get_user (tutor_delete_student_execute s sid) sid = none ∧
    (∀ uid, uid ≠ sid →
      get_user (tutor_delete_student_execute s sid) uid = get_user s uid) ∧
    (∀ hw, hw ∈ (tutor_delete_student_execute s sid).homeworks_db ↔
      hw ∈ s.homeworks_db ∧ hw.student_id ≠ sid) ∧
    (∀ l, l ∈ (tutor_delete_student_execute s sid).lessons_db ↔
      l ∈ s.lessons_db ∧ l.student_id ≠ sid) ∧
    (∀ w, w ∈ (tutor_delete_student_execute s sid).users_db ↔
      w ∈ s.users_db ∧ w.telegram_id ≠ sid) := by
  unfold tutor_delete_student_execute
  rw [h]
  refine ⟨?_, ?_, ?_, ?_, ?_⟩
  · apply List.find?_eq_none.mpr
    intro x hx
    have hx' := List.mem_filter.mp hx
    simp only [bne_iff_ne, ne_eq] at hx'
    simp [hx'.2]
  · intro uid hne
    exact find?_filter_of_imp s.users_db _ _ (by
      intro a ha
      simp only [beq_iff_eq] at ha
      simp [bne_iff_ne, ha, hne])
  · intro hw
    show hw ∈ s.homeworks_db.filter (fun h => h.student_id != sid) ↔ _
    rw [List.mem_filter]
    simp [bne_iff_ne]
  · intro l
    show l ∈ s.lessons_db.filter (fun l => l.student_id != sid) ↔ _
    rw [List.mem_filter]
    simp [bne_iff_ne]
  · intro w
    show w ∈ s.users_db.filter (fun u => u.telegram_id != sid) ↔ _
    rw [List.mem_filter]
    simp [bne_iff_ne]

/-- Concrete instantiation of `C9_delete_student_cascades`: deleting
student 10 from `exStateDel`. -/
theorem C9_delete_student_cascades_witness :
    get_user exStateDel 10 = some exStudent ∧
    (get_user (tutor_delete_student_execute exStateDel 10) 10 = none ∧
    (∀ uid, uid ≠ 10 →
      get_user (tutor_delete_student_execute exStateDel 10) uid =
        get_user exStateDel uid) ∧
    (∀ hw, hw ∈ (tutor_delete_student_execute exStateDel 10).homeworks_db ↔
      hw ∈ exStateDel.homeworks_db ∧ hw.student_id ≠ 10) ∧
    (∀ l, l ∈ (tutor_delete_student_execute exStateDel 10).lessons_db ↔
      l ∈ exStateDel.lessons_db ∧ l.student_id ≠ 10) ∧
    (∀ w, w ∈ (tutor_delete_student_execute exStateDel 10).users_db ↔
      w ∈ exStateDel.users_db ∧ w.telegram_id ≠ 10)) :=
  ⟨by decide, C9_delete_student_cascades exStateDel 10 exStudent (by decide)⟩

lemma digitVal?_toDigitChar (k : Nat) (hk : k ≤ 9) :
    digitVal? (toDigitChar k) = some k := by
  interval_cases k <;> decide

lemma parseNat2_pad2 (n : Nat) (hn : n ≤ 99) (rest : List Char) :
    parseNat2 (pad2Chars n ++ rest) = some (n, rest) := by
  have h1 : n / 10 ≤ 9 := by omega
  have h2 : n % 10 ≤ 9 := by omega
  show parseNat2 (toDigitChar (n / 10) :: toDigitChar (n % 10) :: rest) = _
  simp only [parseNat2, digitVal?_toDigitChar _ h1,
    digitVal?_toDigitChar _ h2]
  have he : 10 * (n / 10) + n % 10 = n := by omega
  rw [he]

lemma parseNat2_pad2_nil (n : Nat) (hn : n ≤ 99) :
    parseNat2 (pad2Chars n) = some (n, []) := by
  have := parseNat2_pad2 n hn []
  simpa using this

lemma parseNat4_pad4 (n : Nat) (hn : n ≤ 9999) (rest : List Char) :
    parseNat4 (pad4Chars n ++ rest) = some (n, rest) := by
  have h1 : n / 1000 ≤ 9 := by omega
  have h2 : n / 100 % 10 ≤ 9 := by omega
  have h3 : n / 10 % 10 ≤ 9 := by omega
  have h4 : n % 10 ≤ 9 := by omega
  show parseNat4 (toDigitChar (n / 1000) :: toDigitChar (n / 100 % 10) ::
    toDigitChar (n / 10 % 10) :: toDigitChar (n % 10) :: rest) = _
  simp only [parseNat4, digitVal?_toDigitChar _ h1,
    digitVal?_toDigitChar _ h2, digitVal?_toDigitChar _ h3,
    digitVal?_toDigitChar _ h4]
  have he : 1000 * (n / 1000) + 100 * (n / 100 % 10) + 10 * (n / 10 % 10) +
      n % 10 = n := by omega
  rw [he]

lemma parseNat4_pad4_nil (n : Nat) (hn : n ≤ 9999) :
    parseNat4 (pad4Chars n) = some (n, []) := by
  have := parseNat4_pad4 n hn []
  simpa using this

lemma expectChar_cons (c : Char) (rest : List Char) :
    expectChar c (c :: rest) = some rest := by
  simp [expectChar]

lemma daysInMonth_le_31 (y m : Nat) : daysInMonth y m ≤ 31 := by
  unfold daysInMonth
  split_ifs <;> omega

lemma validDateTime_bounds (y m d hh mi : Nat)
    (hv : validDateTime y m d hh mi = true) :
    d ≤ 99 ∧ m ≤ 99 ∧ y ≤ 9999 ∧ hh ≤ 99 ∧ mi ≤ 99 := by
  unfold validDateTime at hv
  simp only [Bool.and_eq_true, decide_eq_true_eq] at hv
  have hd31 := daysInMonth_le_31 y m
  omega

lemma strptime_full_format (d m y hh mi : Nat)
    (hv : validDateTime y m d hh mi = true) :
    strptime_full (format_full d m y hh mi) = some (d, m, y, hh, mi) := by
  obtain ⟨hd, hm, hy, hh99, hmi⟩ := validDateTime_bounds y m d hh mi hv
  show strptime_full_chars (pad2Chars d ++ '.' :: (pad2Chars m ++
    '.' :: (pad4Chars y ++ ' ' :: (pad2Chars hh ++
      ':' :: pad2Chars mi)))) = _
  unfold strptime_full_chars
  rw [parseNat2_pad2 d hd]
  dsimp only
  rw [expectChar_cons]
  dsimp only
  rw [parseNat2_pad2 m hm]
  dsimp only
  rw [expectChar_cons]
  dsimp only
  rw [parseNat4_pad4 y hy]
  dsimp only
  rw [expectChar_cons]
  dsimp only
  rw [parseNat2_pad2 hh hh99]
  dsimp only
  rw [expectChar_cons]
  dsimp only
  rw [parseNat2_pad2_nil mi hmi]
  dsimp only
  simp [hv]

lemma strptime_full_format_date (d m y : Nat)
    (hv : validDateTime y m d 23 59 = true) :
    strptime_full (format_date d m y) = none := by
  obtain ⟨hd, hm, hy, h23, h59⟩ := validDateTime_bounds y m d 23 59 hv
  show strptime_full_chars (pad2Chars d ++ '.' :: (pad2Chars m ++
    '.' :: pad4Chars y)) = _
  unfold strptime_full_chars
  rw [parseNat2_pad2 d hd]
  dsimp only
  rw [expectChar_cons]
  dsimp only
  rw [parseNat2_pad2 m hm]
  dsimp only
  rw [expectChar_cons]
  dsimp only
  rw [parseNat4_pad4_nil y hy]
  dsimp only
  rfl

lemma strptime_date_format (d m y : Nat)
    (hv : validDateTime y m d 23 59 = true) :
    strptime_date (format_date d m y) = some (d, m, y) := by
  obtain ⟨hd, hm, hy, h23, h59⟩ := validDateTime_bounds y m d 23 59 hv
  show strptime_date_chars (pad2Chars d ++ '.' :: (pad2Chars m ++
    '.' :: pad4Chars y)) = _
  unfold strptime_date_chars
  rw [parseNat2_pad2 d hd]
  dsimp only
  rw [expectChar_cons]
  dsimp only
  rw [parseNat2_pad2 m hm]
  dsimp only
  rw [expectChar_cons]
  dsimp only
  rw [parseNat4_pad4_nil y hy]
  dsimp only
  simp [hv]

/-- Claim C8: `parse_datetime` accepts `DD.MM.YYYY HH:MM`, falls back on
`DD.MM.YYYY` read as 23:59 of that day, converts through the zone to a
UTC instant, and returns `None` (never an exception) for a string that
matches neither format. -/
theorem C8_parse_datetime_formats (d m y hh mi : Nat) (tz : Int)
    (s : String)
    (hfull : validDateTime y m d hh mi = true)
    (hdate : validDateTime y m d 23 59 = true)
    (hno1 : strptime_full s = none) (hno2 : strptime_date s = none) :
    parse_datetime (format_full d m y hh mi) tz =
      some (toUTCMinutes y m d hh mi tz) ∧
    parse_datetime (format_date d m y) tz =
      some (toUTCMinutes y m d 23 59 tz) ∧
    parse_datetime s tz = none := by
  refine ⟨?_, ?_, ?_⟩
  · unfold parse_datetime
    rw [strptime_full_format d m y hh mi hfull]
  · unfold parse_datetime
    rw [strptime_full_format_date d m y hdate,
      strptime_date_format d m y hdate]
  · unfold parse_datetime
    rw [hno1, hno2]

/-- Concrete instantiation of `C8_parse_datetime_formats`:
`10.03.2025 18:00` and `10.03.2025` in a UTC+180min zone, and the
unparseable string `today`. -/
theorem C8_parse_datetime_formats_witness :
    (validDateTime 2025 3 10 18 0 = true ∧
     validDateTime 2025 3 10 23 59 = true ∧
     strptime_full "today" = none ∧ strptime_date "today" = none) ∧
    (parse_datetime (format_full 10 3 2025 18 0) 180 =
      some (toUTCMinutes 2025 3 10 18 0 180) ∧
    parse_datetime (format_date 10 3 2025) 180 =
      some (toUTCMinutes 2025 3 10 23 59 180) ∧
    parse_datetime "today" 180 = none) :=
  ⟨⟨by decide, by decide, by decide, by decide⟩,
   C8_parse_datetime_formats 10 3 2025 18 0 180 "today"
     (by decide) (by decide) (by decide) (by decide)⟩

end Bot
